import Mathlib

/-!
Shallow embedding of the upload service in `src/server.js`: the multer
configuration (allow-list file filter, 10 MiB size limit, disk-storage
filename composition), the `/upload` route with its error-handling
middleware, and the periodic cleanup sweep of the uploads directory.
-/

/-- Constant `FILE_SIZE_LIMIT` (src/server.js line 27): `10 * 1024 * 1024` bytes. -/
def FILE_SIZE_LIMIT : Nat := 10 * 1024 * 1024

/-- Constant `ALLOWED_FILE_TYPES` (src/server.js lines 28-36). -/
def ALLOWED_FILE_TYPES : List String :=
  ["image/jpeg", "image/png", "image/gif", "image/webp",
   "video/mp4", "video/mpeg", "video/quicktime"]

/-- Predicate `fileFilter` (src/server.js lines 54-60): a file is accepted
(`cb(null, true)`) exactly when `ALLOWED_FILE_TYPES.includes(file.mimetype)`;
otherwise the filter passes `new Error('Invalid file type')` to the callback. -/
def fileFilter (mimetype : String) : Bool :=
  ALLOWED_FILE_TYPES.contains mimetype

/-- JS `mimetype.split('/')[0]` (src/server.js line 46): the segment of the
string before the first `/` (the whole string when it has no `/`). -/
def mimeTag (s : String) : String :=
  ⟨s.data.takeWhile (fun c => c ≠ '/')⟩

/-- The basename `path.extname` works on, reversed: trailing slashes are
ignored and the basename is the part after the last remaining `/`. -/
def baseRev (p : String) : List Char :=
  (p.data.reverse.dropWhile (fun c => c = '/')).takeWhile (fun c => c ≠ '/')

/-- The (reversed) run of basename characters strictly after its last dot. -/
def afterDot (p : String) : List Char :=
  (baseRev p).takeWhile (fun c => c ≠ '.')

/-- Node's `path.extname` (POSIX), used at src/server.js line 47.
The result is the basename's suffix from its last `.` (inclusive), except
that it is `""` when the basename has no dot (`afterDot` covers all of it),
when the last dot is the basename's first character (e.g. `.bashrc`), or
when the basename is `..`. -/
def extname (p : String) : String :=
  if (afterDot p).length = (baseRev p).length then ""
  else if (afterDot p).length + 1 = (baseRev p).length then ""
  else if baseRev p = ['.', '.'] then ""
  else ⟨'.' :: (afterDot p).reverse⟩

/-- Function `storage.filename` (src/server.js lines 45-50):
`` `${fileType}_${Date.now()}_${Math.round(Math.random() * 1E9)}${fileExtension}` ``
where `fileType = file.mimetype.split('/')[0]` and
`fileExtension = path.extname(file.originalname)`.  `now` stands for the
`Date.now()` reading and `rand` for the rounded random draw; JS renders both
in decimal, i.e. `Nat.repr`. -/
def filename (mimetype originalname : String) (now rand : Nat) : String :=
  let fileType := mimeTag mimetype
  let fileExtension := extname originalname
  let uniqueSuffix := fileType ++ "_" ++ Nat.repr now ++ "_" ++ Nat.repr rand
  uniqueSuffix ++ fileExtension

/-- One candidate upload as the HTTP layer hands it to multer. -/
structure UploadCandidate where
  declaredMimeType : String
  originalFilename : String
  sizeBytes : Nat
deriving DecidableEq

/-- The spec's ingest error taxonomy for the validation pipeline. -/
inductive IngestError where
  | NoFileProvided
  | UnsupportedType
  | PayloadTooLarge
deriving DecidableEq

/-- Descriptor of one accepted, stored upload. -/
structure StoredFile where
  storedName : String
  originalName : String
  mimeType : String
  sizeBytes : Nat
deriving DecidableEq

/-- The ingest pipeline that `src/server.js` assembles out of multer
(lines 62-68): no file part yields no stored file; `fileFilter` runs when the
file's headers arrive, before any byte is written, so a rejected type leaves
the storage root untouched; the `limits.fileSize` check fires once the byte
count strictly exceeds `FILE_SIZE_LIMIT` (busboy truncates at the limit and
multer removes the partial file), so an oversized accepted-type upload also
leaves the root unchanged; otherwise the file is stored under the name
composed by `storage.filename`.  The storage root is modelled as the list of
stored names. -/
def ingest (candidate : Option UploadCandidate) (now rand : Nat)
    (storageRoot : List String) :
    Except IngestError StoredFile × List String :=
  match candidate with
  | none => (Except.error IngestError.NoFileProvided, storageRoot)
  | some c =>
    if fileFilter c.declaredMimeType = false then
      (Except.error IngestError.UnsupportedType, storageRoot)
    else if FILE_SIZE_LIMIT < c.sizeBytes then
      (Except.error IngestError.PayloadTooLarge, storageRoot)
    else
      let name := filename c.declaredMimeType c.originalFilename now rand
      (Except.ok ⟨name, c.originalFilename, c.declaredMimeType, c.sizeBytes⟩,
        storageRoot ++ [name])

/-- Shape of the JSON responses the server produces on `/upload`. -/
structure HttpResponse where
  status : Nat
  success : Bool
  message : String
  error : Option String
deriving DecidableEq

/-- The HTTP outcome of `POST /upload` (src/server.js lines 85-127).
With no file part, multer sets no `req.file` and raises no error, so the
route handler answers 400 (line 88).  When `fileFilter` rejects, multer
aborts with the filter's `Error('Invalid file type')`; Express routes that
error past the handler into the error-handling middleware (lines 120-127),
which answers 500 with `message: 'An unexpected error occurred'` and the
error's message.  A `LIMIT_FILE_SIZE` MulterError (`File too large`) takes
the same middleware path.  An accepted file reaches the handler's success
branch (lines 104-108). -/
def handleUpload (filePart : Option UploadCandidate) : HttpResponse :=
  match filePart with
  | none =>
    ⟨400, false, "No file was uploaded or file type is not allowed", none⟩
  | some f =>
    if fileFilter f.declaredMimeType = false then
      ⟨500, false, "An unexpected error occurred", some "Invalid file type"⟩
    else if FILE_SIZE_LIMIT < f.sizeBytes then
      ⟨500, false, "An unexpected error occurred", some "File too large"⟩
    else
      ⟨200, true, "File uploaded successfully", none⟩

/-- Constant `UPLOAD_CLEANUP_INTERVAL` (src/server.js line 130): 24 hours in ms,
used both as the sweep cadence and as the max file age. -/
def UPLOAD_CLEANUP_INTERVAL : Int := 24 * 60 * 60 * 1000

/-- One directory entry as the sweep sees it: its name and the
`stats.birthtimeMs` reading. -/
structure DirEntry where
  name : String
  birthtimeMs : Int
deriving DecidableEq

/-- The deletion predicate of src/server.js line 150:
`now - stats.birthtimeMs > UPLOAD_CLEANUP_INTERVAL`. -/
def isExpired (now : Int) (e : DirEntry) : Bool :=
  UPLOAD_CLEANUP_INTERVAL < now - e.birthtimeMs

/-- One error-free sweep pass over the listed entries (src/server.js
lines 141-160): the entries that remain are exactly those not expired. -/
def sweep (now : Int) (files : List DirEntry) : List DirEntry :=
  files.filter (fun e => !(isExpired now e))

/-- Result of `fs.stat` on one entry during a sweep. -/
inductive StatOutcome where
  | ok (birthtimeMs : Int)
  | ioError
deriving DecidableEq

/-- One entry of a sweep pass together with the filesystem behaviour it
will exhibit: its `fs.stat` outcome and whether `fs.unlink` would fail. -/
structure SweepEntry where
  name : String
  stat : StatOutcome
  unlinkFails : Bool
deriving DecidableEq

/-- What the sweep's per-entry callback chain does with one entry. -/
inductive EntryOutcome where
  | deleted
  | retained
  | statErrorLogged
  | unlinkErrorLogged
deriving DecidableEq

/-- The per-entry body of `files.forEach` (src/server.js lines 141-160):
a `fs.stat` error is logged and that callback returns (affecting only this
entry); an expired entry is unlinked, a failing unlink merely logged;
a young entry is left alone. -/
def processEntry (now : Int) (e : SweepEntry) : EntryOutcome :=
  match e.stat with
  | StatOutcome.ioError => EntryOutcome.statErrorLogged
  | StatOutcome.ok birth =>
    if UPLOAD_CLEANUP_INTERVAL < now - birth then
      if e.unlinkFails then EntryOutcome.unlinkErrorLogged
      else EntryOutcome.deleted
    else EntryOutcome.retained

/-- A sweep pass over a directory listing: `forEach` applies the per-entry
callback to every entry, one independently of another. -/
def sweepPass (now : Int) (files : List SweepEntry) : List EntryOutcome :=
  files.map (processEntry now)

/-- One scheduled firing of the cleanup timer: the `fs.readdir` result it
observes and the `Date.now()` it reads (src/server.js lines 131-162). -/
structure SweepTick where
  listing : Except Unit (List SweepEntry)
  now : Int

/-- Body of the `setInterval` callback: a `readdir` error is logged and the
callback returns without touching any entry; otherwise every listed entry is
processed. -/
def runTick (t : SweepTick) : List EntryOutcome :=
  match t.listing with
  | Except.error _ => []
  | Except.ok files => sweepPass t.now files

/-- The timer keeps firing regardless of what earlier ticks did: the
lifetime behaviour of the cleanup task is the independent run of each tick. -/
def runTicks (ts : List SweepTick) : List (List EntryOutcome) :=
  ts.map runTick

/-- Modelled from the spec (claim C4's words): "extension is the original
filename's suffix including the dot (empty string if the original name has
no dot)" — the suffix from the last dot of the whole name, inclusive. -/
def specExtension (name : String) : String :=
  let afterDot := name.data.reverse.takeWhile (fun c => c ≠ '.')
  if afterDot.length = name.data.length then ""
  else ⟨'.' :: afterDot.reverse⟩

/-- The stored-name composition exactly as claim C4 words it, built on
`specExtension`. -/
def specStoredName (mimetype originalname : String) (now rand : Nat) : String :=
  mimeTag mimetype ++ "_" ++ Nat.repr now ++ "_" ++ Nat.repr rand ++
    specExtension originalname

/-- Big-endian decimal digit list of a natural number; the reference shape
`Nat.repr`'s fuelled `toDigitsCore` is proved to produce. -/
def natDigits (n : Nat) : List Char :=
  if h : n < 10 then [Nat.digitChar n]
  else natDigits (n / 10) ++ [Nat.digitChar (n % 10)]
decreasing_by exact Nat.div_lt_self (by omega) (by omega)

/-- Numeric value of one decimal digit character. -/
def digitVal (c : Char) : Nat := c.toNat - 48

/-- Numeric value of a big-endian decimal digit list. -/
def digitsVal (l : List Char) : Nat :=
  l.foldl (fun x c => 10 * x + digitVal c) 0

example : extname "photo.png" = ".png" := by decide
example : extname ".bashrc" = "" := by decide
example : extname "noext" = "" := by decide
example : extname "file." = "." := by decide
example : extname "a.b/c" = "" := by decide
example : extname "dir/.." = "" := by decide
example : extname "a.b/" = ".b" := by decide
example : extname "..." = "." := by decide
example : extname "..b" = ".b" := by decide
example : specExtension ".bashrc" = ".bashrc" := by decide
example : filename "image/png" "photo.png" 3 7 = "image_3_7.png" := by decide

theorem digitChar_isDigit {n : Nat} (h : n < 10) :
    (Nat.digitChar n).isDigit = true := by
  interval_cases n <;> decide

theorem digitVal_digitChar {n : Nat} (h : n < 10) :
    digitVal (Nat.digitChar n) = n := by
  interval_cases n <;> decide

theorem natDigits_isDigit (n : Nat) : ∀ c ∈ natDigits n, c.isDigit = true := by
  induction n using Nat.strong_induction_on with
  | _ n ih =>
    by_cases h : n < 10
    · rw [natDigits, dif_pos h]
      intro c hc
      simp only [List.mem_singleton] at hc
      subst hc
      exact digitChar_isDigit h
    · rw [natDigits, dif_neg h]
      intro c hc
      rcases List.mem_append.mp hc with h1 | h2
      · exact ih (n / 10) (Nat.div_lt_self (by omega) (by omega)) c h1
      · simp only [List.mem_singleton] at h2
        subst h2
        exact digitChar_isDigit (Nat.mod_lt n (by omega))

theorem toDigitsCore_eq_natDigits :
    ∀ (f n : Nat) (acc : List Char), n < f →
      Nat.toDigitsCore 10 f n acc = natDigits n ++ acc := by
  intro f
  induction f with
  | zero => intro n acc h; omega
  | succ f ih =>
    intro n acc h
    simp only [Nat.toDigitsCore]
    by_cases h10 : n / 10 = 0
    · have hlt : n < 10 := by omega
      rw [if_pos h10, natDigits, dif_pos hlt, Nat.mod_eq_of_lt hlt,
        List.singleton_append]
    · have hge : ¬ n < 10 := by
        intro hl
        exact h10 (Nat.div_eq_of_lt hl)
      have hlt2 : n / 10 < f := by omega
      rw [if_neg h10, ih (n / 10) (Nat.digitChar (n % 10) :: acc) hlt2]
      conv_rhs => rw [natDigits, dif_neg hge]
      simp

theorem repr_data (n : Nat) : (Nat.repr n).data = natDigits n := by
  show (Nat.toDigits 10 n).asString.data = natDigits n
  rw [Nat.toDigits, toDigitsCore_eq_natDigits (n + 1) n [] (Nat.lt_succ_self n)]
  simp [List.asString]

theorem digitsVal_aux (n : Nat) : ∀ a : Nat,
    List.foldl (fun x c => 10 * x + digitVal c) a (natDigits n) =
      a * 10 ^ (natDigits n).length + n := by
  induction n using Nat.strong_induction_on with
  | _ n ih =>
    intro a
    by_cases h : n < 10
    · rw [natDigits, dif_pos h]
      simp [digitVal_digitChar h]
      ring
    · rw [natDigits, dif_neg h]
      rw [List.foldl_append]
      rw [ih (n / 10) (Nat.div_lt_self (by omega) (by omega)) a]
      simp only [List.foldl_cons, List.foldl_nil, List.length_append,
        List.length_singleton]
      rw [digitVal_digitChar (Nat.mod_lt n (by omega))]
      have hdm : 10 * (n / 10) + n % 10 = n := Nat.div_add_mod n 10
      have hp : (10 : Nat) ^ ((natDigits (n / 10)).length + 1) =
          10 ^ (natDigits (n / 10)).length * 10 := pow_succ 10 _
      rw [hp]
      ring_nf
      omega

theorem digitsVal_natDigits (n : Nat) : digitsVal (natDigits n) = n := by
  have h := digitsVal_aux n 0
  simpa [digitsVal] using h

theorem natDigits_inj {m n : Nat} (h : natDigits m = natDigits n) : m = n := by
  have hm := digitsVal_natDigits m
  rw [h, digitsVal_natDigits] at hm
  omega

theorem nat_repr_inj {m n : Nat} (h : Nat.repr m = Nat.repr n) : m = n := by
  apply natDigits_inj
  rw [← repr_data, ← repr_data, h]

theorem isDigit_ne_marks {c : Char} (h : c.isDigit = true) :
    c ≠ '_' ∧ c ≠ '.' ∧ c ≠ '/' := by
  refine ⟨?_, ?_, ?_⟩ <;> (rintro rfl; exact absurd h (by decide))

theorem repr_char_ne (n : Nat) :
    ∀ c ∈ (Nat.repr n).data, c ≠ '_' ∧ c ≠ '.' ∧ c ≠ '/' := by
  intro c hc
  rw [repr_data] at hc
  exact isDigit_ne_marks (natDigits_isDigit n c hc)

theorem string_eq_of_data {a b : String} (h : a.data = b.data) : a = b := by
  cases a
  cases b
  exact congrArg String.mk h

theorem sep_split (sep : Char) :
    ∀ (a b r s : List Char), (∀ c ∈ a, c ≠ sep) → (∀ c ∈ b, c ≠ sep) →
      a ++ sep :: r = b ++ sep :: s → a = b ∧ r = s := by
  intro a
  induction a with
  | nil =>
    intro b r s _ hb he
    cases b with
    | nil => simpa using he
    | cons x xs =>
      simp only [List.nil_append, List.cons_append, List.cons.injEq] at he
      exact absurd he.1.symm (hb x (by simp))
  | cons x xs ih =>
    intro b r s ha hb he
    cases b with
    | nil =>
      simp only [List.nil_append, List.cons_append, List.cons.injEq] at he
      exact absurd he.1 (ha x (by simp))
    | cons y ys =>
      simp only [List.cons_append, List.cons.injEq] at he
      obtain ⟨hxy, htail⟩ := he
      obtain ⟨h1, h2⟩ := ih ys r s (fun c hc => ha c (by simp [hc]))
        (fun c hc => hb c (by simp [hc])) htail
      exact ⟨by rw [hxy, h1], h2⟩

theorem mimeTag_chars (s : String) : ∀ c ∈ (mimeTag s).data, c ≠ '/' := by
  intro c hc
  have h := List.mem_takeWhile_imp (l := s.data) (p := fun c => c ≠ '/') hc
  simpa using h

theorem afterDot_chars (p : String) : ∀ c ∈ afterDot p, c ≠ '/' ∧ c ≠ '.' := by
  intro c hc
  have hdot := List.mem_takeWhile_imp (l := baseRev p) (p := fun c => c ≠ '.') hc
  constructor
  · have hslash := List.mem_takeWhile_imp
      (l := p.data.reverse.dropWhile (fun c => c = '/')) (p := fun c => c ≠ '/')
      ((List.takeWhile_sublist _).mem hc)
    simpa using hslash
  · simpa using hdot

theorem extname_chars (p : String) :
    ∀ c ∈ (extname p).data, c ≠ '/' := by
  intro c hc
  unfold extname at hc
  split_ifs at hc
  · simp at hc
  · simp at hc
  · simp at hc
  · simp only [List.mem_cons] at hc
    rcases hc with h1 | h2
    · subst h1; decide
    · exact (afterDot_chars p c (List.mem_reverse.mp h2)).1

theorem extname_shape (p : String) :
    (extname p).data = [] ∨
      ∃ tl : List Char, (extname p).data = '.' :: tl ∧ ∀ c ∈ tl, c ≠ '.' := by
  unfold extname
  split_ifs
  · left; rfl
  · left; rfl
  · left; rfl
  · right
    refine ⟨(afterDot p).reverse, rfl, ?_⟩
    intro c hc
    exact (afterDot_chars p c (List.mem_reverse.mp hc)).2

theorem underscore_data : ("_" : String).data = ['_'] := rfl

theorem filename_data (m n : String) (t r : Nat) :
    (filename m n t r).data =
      (mimeTag m).data ++ '_' ::
        ((Nat.repr t).data ++ '_' :: ((Nat.repr r).data ++ (extname n).data)) := by
  simp [filename, underscore_data, List.append_assoc]

/-- C1: a candidate whose declared MIME type is outside the allow-set
{image/jpeg, image/png, image/gif, image/webp, video/mp4, video/mpeg,
video/quicktime} is rejected as `UnsupportedType` with the storage root left
unchanged, and a candidate whose declared type is in the set passes the type
check (`fileFilter` accepts it). -/
theorem C1_unsupported_type (c : UploadCandidate) (now rand : Nat)
    (root : List String) :
    (c.declaredMimeType ∉ ALLOWED_FILE_TYPES →
      ingest (some c) now rand root =
        (Except.error IngestError.UnsupportedType, root)) ∧
    (c.declaredMimeType ∈ ALLOWED_FILE_TYPES →
      fileFilter c.declaredMimeType = true) := by
  constructor
  · intro h
    have hf : fileFilter c.declaredMimeType = false := by
      simp [fileFilter, List.contains]
      exact h
    simp [ingest, hf]
  · intro h
    simp [fileFilter, List.contains]
    exact h

theorem C1_unsupported_type_witness :
    ingest (some ⟨"application/pdf", "doc.pdf", 2048⟩) 0 0 [] =
        (Except.error IngestError.UnsupportedType, ([] : List String)) ∧
    fileFilter "image/png" = true := by
  constructor
  · exact (C1_unsupported_type ⟨"application/pdf", "doc.pdf", 2048⟩ 0 0 []).1
      (by decide)
  · exact (C1_unsupported_type ⟨"image/png", "p.png", 7⟩ 0 0 []).2 (by decide)

/-- C2 (code bug, evaluated at the failing input): a request whose file part
has the disallowed type `application/pdf` is answered with HTTP 500
`{ success: false, message, error }` by the error-handling middleware —
because `fileFilter` hands `new Error('Invalid file type')` to multer's
callback, Express skips the route handler's 400 branch — while a request
with no file part does get the 400 `{ success: false, message }` answer, even
though that branch's own message text claims to cover the disallowed-type
case as well. -/
theorem C2_status_divergence :
    handleUpload (some ⟨"application/pdf", "doc.pdf", 2048⟩) =
      ⟨500, false, "An unexpected error occurred", some "Invalid file type"⟩ ∧
    handleUpload none =
      ⟨400, false, "No file was uploaded or file type is not allowed", none⟩ := by
  constructor <;> rfl

/-- C3 counterexample: an 11 MiB candidate whose declared type is
`application/pdf` is strictly larger than 10 MiB, yet `Ingest` returns
`UnsupportedType` — not `PayloadTooLarge` — because the type check runs
first; so the claim's unqualified size statement fails on the code. -/
theorem C3_size_counterexample :
    ingest (some ⟨"application/pdf", "big.pdf", 11534336⟩) 0 0 [] =
        (Except.error IngestError.UnsupportedType, ([] : List String)) ∧
    FILE_SIZE_LIMIT < 11534336 ∧
    (ingest (some ⟨"application/pdf", "big.pdf", 11534336⟩) 0 0 []).1 ≠
      Except.error IngestError.PayloadTooLarge := by
  refine ⟨rfl, by decide, ?_⟩
  show Except.error IngestError.UnsupportedType ≠
    Except.error IngestError.PayloadTooLarge
  simp

/-- C3 as amended: for a candidate whose declared MIME type is in the
allow-set, a size strictly above 10 MiB yields `PayloadTooLarge` with the
storage root unchanged, and a size of exactly 10 MiB is not rejected for
size. -/
theorem C3_payload_too_large (c : UploadCandidate) (now rand : Nat)
    (root : List String) (hm : c.declaredMimeType ∈ ALLOWED_FILE_TYPES) :
    (FILE_SIZE_LIMIT < c.sizeBytes →
      ingest (some c) now rand root =
        (Except.error IngestError.PayloadTooLarge, root)) ∧
    (c.sizeBytes = FILE_SIZE_LIMIT →
      (ingest (some c) now rand root).1 ≠
        Except.error IngestError.PayloadTooLarge) := by
  have hf : fileFilter c.declaredMimeType = true := by
    simp [fileFilter, List.contains]
    exact hm
  constructor
  · intro hsz
    simp [ingest, hf, hsz]
  · intro heq
    have hns : ¬ FILE_SIZE_LIMIT < c.sizeBytes := by omega
    simp [ingest, hf, hns]

theorem C3_payload_too_large_witness :
    ingest (some ⟨"image/png", "big.png", 10485761⟩) 1 2 [] =
        (Except.error IngestError.PayloadTooLarge, ([] : List String)) ∧
    (ingest (some ⟨"image/png", "exact.png", 10485760⟩) 1 2 []).1 ≠
      Except.error IngestError.PayloadTooLarge := by
  constructor
  · exact (C3_payload_too_large ⟨"image/png", "big.png", 10485761⟩ 1 2 []
      (by decide)).1 (by decide)
  · exact (C3_payload_too_large ⟨"image/png", "exact.png", 10485760⟩ 1 2 []
      (by decide)).2 (by decide)

/-- C5: a sweep pass deletes a listed entry exactly when
`now - createdAt > maxAgeMillis` (24 h); in particular an entry created 25
hours before the sweep is deleted and one created 1 hour before is
retained. -/
theorem C5_sweep_threshold (now : Int) (e : DirEntry) (files : List DirEntry)
    (hmem : e ∈ files) :
    (e ∉ sweep now files ↔ now - e.birthtimeMs > UPLOAD_CLEANUP_INTERVAL) ∧
    (now - e.birthtimeMs = 25 * 60 * 60 * 1000 → e ∉ sweep now files) ∧
    (now - e.birthtimeMs = 1 * 60 * 60 * 1000 → e ∈ sweep now files) := by
  have hI : UPLOAD_CLEANUP_INTERVAL = 86400000 := by
    norm_num [UPLOAD_CLEANUP_INTERVAL]
  by_cases hex : UPLOAD_CLEANUP_INTERVAL < now - e.birthtimeMs
  · have hdel : e ∉ sweep now files := by
      simp [sweep, List.mem_filter, isExpired]
      intro _
      omega
    exact ⟨⟨fun _ => hex, fun _ => hdel⟩, fun _ => hdel,
      fun h1 => absurd hex (by omega)⟩
  · have hkeep : e ∈ sweep now files := by
      simp [sweep, List.mem_filter, isExpired]
      exact ⟨hmem, by omega⟩
    exact ⟨⟨fun hni => absurd hkeep hni, fun hgt => absurd hgt hex⟩,
      fun h25 =>
        absurd (show UPLOAD_CLEANUP_INTERVAL < now - e.birthtimeMs by omega) hex,
      fun _ => hkeep⟩

theorem C5_sweep_threshold_witness :
    (⟨"old", 0⟩ : DirEntry) ∉ sweep 90000000 [⟨"old", 0⟩] ∧
    (⟨"young", 0⟩ : DirEntry) ∈ sweep 3600000 [⟨"young", 0⟩] := by
  constructor
  · exact (C5_sweep_threshold 90000000 ⟨"old", 0⟩ [⟨"old", 0⟩]
      (by simp)).2.1 (by norm_num)
  · exact (C5_sweep_threshold 3600000 ⟨"young", 0⟩ [⟨"young", 0⟩]
      (by simp)).2.2 (by norm_num)

/-- C6: the sweep's `forEach` treats entries independently — a failing
entry (stat error or failing unlink) only produces its own logged outcome,
the entries around it are still processed as they would be alone, and any
healthy entry is deleted exactly when it is old enough. -/
theorem C6_entry_isolation (now : Int) (xs ys : List SweepEntry)
    (e : SweepEntry)
    (hfail : e.stat = StatOutcome.ioError ∨ e.unlinkFails = true) :
    sweepPass now (xs ++ e :: ys) =
      sweepPass now xs ++ processEntry now e :: sweepPass now ys ∧
    (e.stat = StatOutcome.ioError →
      processEntry now e = EntryOutcome.statErrorLogged) ∧
    (∀ e₂ : SweepEntry, ∀ b : Int, e₂.unlinkFails = false →
      e₂.stat = StatOutcome.ok b →
      (processEntry now e₂ = EntryOutcome.deleted ↔
        UPLOAD_CLEANUP_INTERVAL < now - b)) := by
  refine ⟨by simp [sweepPass], fun hs => by simp [processEntry, hs], ?_⟩
  intro e₂ b hu hs
  by_cases hexp : UPLOAD_CLEANUP_INTERVAL < now - b
  · simp [processEntry, hs, hexp, hu]
  · simp [processEntry, hs, hexp]

theorem C6_entry_isolation_witness :
    sweepPass 90000000
        ([⟨"a", StatOutcome.ok 0, false⟩] ++
          (⟨"bad", StatOutcome.ioError, false⟩ : SweepEntry) ::
            [⟨"c", StatOutcome.ok 0, false⟩]) =
      sweepPass 90000000 [⟨"a", StatOutcome.ok 0, false⟩] ++
        processEntry 90000000 ⟨"bad", StatOutcome.ioError, false⟩ ::
          sweepPass 90000000 [⟨"c", StatOutcome.ok 0, false⟩] ∧
    processEntry 90000000 ⟨"bad", StatOutcome.ioError, false⟩ =
      EntryOutcome.statErrorLogged ∧
    processEntry 90000000 (⟨"a", StatOutcome.ok 0, false⟩ : SweepEntry) =
      EntryOutcome.deleted := by
  have h := C6_entry_isolation 90000000 [⟨"a", StatOutcome.ok 0, false⟩]
    [⟨"c", StatOutcome.ok 0, false⟩] ⟨"bad", StatOutcome.ioError, false⟩
    (Or.inl rfl)
  exact ⟨h.1, h.2.1 rfl,
    (h.2.2 ⟨"a", StatOutcome.ok 0, false⟩ 0 rfl rfl).mpr
      (by norm_num [UPLOAD_CLEANUP_INTERVAL])⟩

/-- C8: the sweep is idempotent — sweeping the survivors of a sweep again at
the same instant removes nothing further. -/
theorem C8_sweep_idempotent (now : Int) (files : List DirEntry) :
    sweep now (sweep now files) = sweep now files := by
  simp [sweep, List.filter_filter]

/-- C10: a tick whose directory listing fails performs no per-entry
processing at all (the callback just logs and returns), and such a tick
leaves every other tick of the timer's lifetime unaffected. -/
theorem C10_listing_error_isolated (ts₁ ts₂ : List SweepTick) (now : Int) :
    runTick ⟨Except.error (), now⟩ = [] ∧
    runTicks (ts₁ ++ (⟨Except.error (), now⟩ : SweepTick) :: ts₂) =
      runTicks ts₁ ++ ([] : List EntryOutcome) :: runTicks ts₂ := by
  refine ⟨rfl, ?_⟩
  simp [runTicks, runTick]

/-- C9: whatever the client-supplied original filename (path separators and
`..` segments included) and whatever the MIME type, the composed stored name
contains no `/` and is neither `.` nor `..`, so joining it to the storage
root resolves to a direct child of the root. -/
theorem C9_no_path_traversal (mimetype originalname : String) (now rand : Nat) :
    ('/' ∉ (filename mimetype originalname now rand).data) ∧
    filename mimetype originalname now rand ≠ "." ∧
    filename mimetype originalname now rand ≠ ".." := by
  have hdata := filename_data mimetype originalname now rand
  have hslash : '/' ∉ (filename mimetype originalname now rand).data := by
    rw [hdata]
    intro hmem
    rcases List.mem_append.mp hmem with h1 | h2
    · exact mimeTag_chars mimetype _ h1 rfl
    · rcases List.mem_cons.mp h2 with h3 | h4
      · exact absurd h3 (by decide)
      · rcases List.mem_append.mp h4 with h5 | h6
        · exact (repr_char_ne now _ h5).2.2 rfl
        · rcases List.mem_cons.mp h6 with h7 | h8
          · exact absurd h7 (by decide)
          · rcases List.mem_append.mp h8 with h9 | h10
            · exact (repr_char_ne rand _ h9).2.2 rfl
            · exact extname_chars originalname _ h10 rfl
  have hunder : '_' ∈ (filename mimetype originalname now rand).data := by
    rw [hdata]
    exact List.mem_append.mpr (Or.inr (List.mem_cons_self _ _))
  refine ⟨hslash, ?_, ?_⟩
  · intro h
    rw [h] at hunder
    exact absurd hunder (by decide)
  · intro h
    rw [h] at hunder
    exact absurd hunder (by decide)

/-- C4 counterexample: for the original name `.bashrc` the claim's formula
(suffix from the last dot, inclusive; empty only when there is no dot) gives
extension `.bashrc`, but `path.extname` — and hence the code — gives `""`,
so the two composed names differ. -/
theorem C4_extension_counterexample :
    filename "image/png" ".bashrc" 0 0 = "image_0_0" ∧
    specStoredName "image/png" ".bashrc" 0 0 = "image_0_0.bashrc" ∧
    filename "image/png" ".bashrc" 0 0 ≠ specStoredName "image/png" ".bashrc" 0 0 := by
  exact ⟨by decide, by decide, by decide⟩

/-- C4 as amended: the stored name is
`typeTag ++ "_" ++ epochMillis ++ "_" ++ random ++ extension` where the
extension follows Node's `path.extname` (suffix of the basename from its
last dot; empty when the basename has no dot, when the dot is its first
character, or when the basename is `..`); the accepted `image/png` upload
named `photo.png` yields `image_<digits>_<digits>.png`, the timestamp and
random rendered as decimal digit strings. -/
theorem C4_stored_name_composition (now rand : Nat) :
    (∀ mimetype originalname : String,
      filename mimetype originalname now rand =
        mimeTag mimetype ++ "_" ++ Nat.repr now ++ "_" ++ Nat.repr rand ++
          extname originalname) ∧
    filename "image/png" "photo.png" now rand =
      "image_" ++ Nat.repr now ++ "_" ++ Nat.repr rand ++ ".png" ∧
    (∀ c ∈ (Nat.repr now).data, c.isDigit = true) := by
  refine ⟨fun m n => rfl, ?_, ?_⟩
  · apply string_eq_of_data
    rw [filename_data]
    have h1 : (mimeTag "image/png").data = ['i', 'm', 'a', 'g', 'e'] := rfl
    have h2 : ("image_" : String).data = ['i', 'm', 'a', 'g', 'e', '_'] := rfl
    have h3 : (extname "photo.png").data = ['.', 'p', 'n', 'g'] := rfl
    have h4 : ((".png" : String)).data = ['.', 'p', 'n', 'g'] := rfl
    simp [h1, h2, h3, h4, underscore_data, List.append_assoc]
  · intro c hc
    rw [repr_data] at hc
    exact natDigits_isDigit now c hc

theorem C4_stored_name_composition_witness :
    filename "image/png" "photo.png" 3 7 = "image_3_7.png" ∧
    Char.isDigit '3' = true := by
  have h := C4_stored_name_composition 3 7
  refine ⟨?_, h.2.2 '3' (by decide)⟩
  rw [h.2.1]
  decide

theorem allowed_tag_no_underscore {m : String} (hm : m ∈ ALLOWED_FILE_TYPES) :
    ∀ c ∈ (mimeTag m).data, c ≠ '_' := by
  simp only [ALLOWED_FILE_TYPES, List.mem_cons, List.not_mem_nil,
    or_false] at hm
  rcases hm with rfl | rfl | rfl | rfl | rfl | rfl | rfl <;> decide

/-- C7 counterexample: two accepted ingests of distinct candidates that
happen to observe the same `Date.now()` reading and draw the same random
value compose the same stored name — the timestamp+random pair is only a
collision-avoidance heuristic. -/
theorem C7_collision_counterexample :
    filename "image/png" "a.png" 5 7 = filename "image/png" "b.png" 5 7 ∧
    ingest (some ⟨"image/png", "a.png", 100⟩) 5 7 [] =
      (Except.ok ⟨"image_5_7.png", "a.png", "image/png", 100⟩,
        ["image_5_7.png"]) ∧
    ingest (some ⟨"image/png", "b.png", 100⟩) 5 7 [] =
      (Except.ok ⟨"image_5_7.png", "b.png", "image/png", 100⟩,
        ["image_5_7.png"]) := by
  exact ⟨rfl, rfl, rfl⟩

/-- C7 as amended: two accepted ingests compose distinct stored names
provided their (timestamp, random) observations differ — whatever the two
allowed MIME types and the two original filenames. -/
theorem C7_distinct_names (m₁ m₂ n₁ n₂ : String) (t₁ r₁ t₂ r₂ : Nat)
    (h₁ : m₁ ∈ ALLOWED_FILE_TYPES) (h₂ : m₂ ∈ ALLOWED_FILE_TYPES)
    (hne : (t₁, r₁) ≠ (t₂, r₂)) :
    filename m₁ n₁ t₁ r₁ ≠ filename m₂ n₂ t₂ r₂ := by
  intro heq
  have hd : (filename m₁ n₁ t₁ r₁).data = (filename m₂ n₂ t₂ r₂).data := by
    rw [heq]
  rw [filename_data, filename_data] at hd
  obtain ⟨htagEq, hrest⟩ := sep_split '_' _ _ _ _
    (allowed_tag_no_underscore h₁) (allowed_tag_no_underscore h₂) hd
  obtain ⟨hTeq, hrest₂⟩ := sep_split '_' _ _ _ _
    (fun c hc => (repr_char_ne t₁ c hc).1)
    (fun c hc => (repr_char_ne t₂ c hc).1) hrest
  have ht : t₁ = t₂ := nat_repr_inj (string_eq_of_data hTeq)
  rcases extname_shape n₁ with hE₁ | ⟨tl₁, hE₁, _⟩ <;>
    rcases extname_shape n₂ with hE₂ | ⟨tl₂, hE₂, _⟩
  · rw [hE₁, hE₂] at hrest₂
    simp only [List.append_nil] at hrest₂
    have hr : r₁ = r₂ := nat_repr_inj (string_eq_of_data hrest₂)
    exact hne (by rw [ht, hr])
  · rw [hE₁, hE₂] at hrest₂
    simp only [List.append_nil] at hrest₂
    have hdot : ('.' : Char) ∈ (Nat.repr r₁).data := by
      rw [hrest₂]
      exact List.mem_append.mpr (Or.inr (List.mem_cons_self _ _))
    exact (repr_char_ne r₁ '.' hdot).2.1 rfl
  · rw [hE₁, hE₂] at hrest₂
    simp only [List.append_nil] at hrest₂
    have hdot : ('.' : Char) ∈ (Nat.repr r₂).data := by
      rw [← hrest₂]
      exact List.mem_append.mpr (Or.inr (List.mem_cons_self _ _))
    exact (repr_char_ne r₂ '.' hdot).2.1 rfl
  · rw [hE₁, hE₂] at hrest₂
    obtain ⟨hReq, _⟩ := sep_split '.' _ _ _ _
      (fun c hc => (repr_char_ne r₁ c hc).2.1)
      (fun c hc => (repr_char_ne r₂ c hc).2.1) hrest₂
    have hr : r₁ = r₂ := nat_repr_inj (string_eq_of_data hReq)
    exact hne (by rw [ht, hr])

theorem C7_distinct_names_witness :
    filename "image/png" "a.png" 1 2 ≠ filename "image/png" "b.txt" 1 3 :=
  C7_distinct_names "image/png" "image/png" "a.png" "b.txt" 1 2 1 3
    (by decide) (by decide) (by decide)
